import Mathlib

/-!
# A verification of the kilo terminal-editor core

Shallow embedding of `src/kilo.c` (the second, current revision of the file):
the escape-sequence key decoder (`editorReadKey`), cursor clamping
(`editorMoveCursor` / `editorProcessKeypress`), the append buffer
(`abAppend`), the row store (`editorAppendRow` with the CR/LF stripping done
by `editorOpen`), the renderer (`editorDrawRows` / `editorRefreshScreen`) and
the cursor-position-report parser (`getCursorPosition`).

Bytes are modelled as `Nat`; input streams as `List Nat` where the end of the
list stands for a `read` that times out (raw mode sets `VMIN = 0`,
`VTIME = 1`, so a `read` returning 0 bytes is the timeout case).
-/

namespace Kilo

/-- Bytes of an ASCII string, as natural numbers. -/
def bytesOf (s : String) : List Nat := s.toList.map Char.toNat

/-! ## Key codes: `enum editorKey` in kilo.c -/

def ARROW_LEFT : Nat := 1000
def ARROW_RIGHT : Nat := 1001
def ARROW_UP : Nat := 1002
def ARROW_DOWN : Nat := 1003
def DEL_KEY : Nat := 1004
def PAGE_UP : Nat := 1005
def PAGE_DOWN : Nat := 1006

/-! ## The key decoder: `editorReadKey`

`editorReadKey` first blocks for one byte `c`.  If `c` is ESC it issues
further reads, each of which can time out; we model the decoder as a function
of the first byte and the list of bytes still available before the timeout.
It returns the decoded key together with the bytes left unconsumed. -/

/-- `editorReadKey` from kilo.c, lines 294-339.  `c` is the first byte read;
`rest` the bytes available after it (the timeout occurs at the end of the
list).  Result: decoded key code and the remaining input. -/
def editorReadKey (c : Nat) (rest : List Nat) : Nat × List Nat :=
  if c = 27 then
    match rest with
    | [] => (27, [])               -- read of seq[0] times out
    | [_] => (27, [])              -- read of seq[1] times out
    | s0 :: s1 :: rest2 =>
      if s0 = 91 then              -- seq[0] == '['
        if 48 ≤ s1 ∧ s1 ≤ 57 then  -- seq[1] is a digit
          match rest2 with
          | [] => (27, [])         -- read of seq[2] times out
          | s2 :: rest3 =>
            if s2 = 126 then       -- seq[2] == '~'
              if s1 = 51 then (DEL_KEY, rest3)
              else if s1 = 53 then (PAGE_UP, rest3)
              else if s1 = 54 then (PAGE_DOWN, rest3)
              else (27, rest3)
            else (27, rest3)
        else
          if s1 = 65 then (ARROW_UP, rest2)
          else if s1 = 66 then (ARROW_DOWN, rest2)
          else if s1 = 67 then (ARROW_RIGHT, rest2)
          else if s1 = 68 then (ARROW_LEFT, rest2)
          else (27, rest2)
      else (27, rest2)
  else (c, rest)

/-! ## Cursor clamping: `editorMoveCursor` / `editorProcessKeypress`

`E.cx`/`E.cy` are C `int`s; we model them as `Int` to keep the clamping
comparisons faithful. -/

/-- The cursor part of `struct editorConfig`. -/
structure Cursor where
  cx : Int
  cy : Int
deriving DecidableEq

/-- `editorMoveCursor` from kilo.c, lines 520-535. -/
def editorMoveCursor (rows cols : Int) (key : Nat) (s : Cursor) : Cursor :=
  if key = ARROW_LEFT then
    (if s.cx ≠ 0 then { s with cx := s.cx - 1 } else s)
  else if key = ARROW_RIGHT then
    (if s.cx ≠ cols - 1 then { s with cx := s.cx + 1 } else s)
  else if key = ARROW_UP then
    (if s.cy ≠ 0 then { s with cy := s.cy - 1 } else s)
  else if key = ARROW_DOWN then
    (if s.cy ≠ rows - 1 then { s with cy := s.cy + 1 } else s)
  else s

/-- The cursor effect of `editorProcessKeypress`, kilo.c lines 552-579.
PAGE_UP/PAGE_DOWN run `editorMoveCursor` `E.screenrows` times; arrows run it
once; every other key (the quit key exits the process, the default case does
nothing) leaves the cursor unchanged. -/
def editorProcessKeypress (rows cols : Int) (key : Nat) (s : Cursor) : Cursor :=
  if key = PAGE_UP ∨ key = PAGE_DOWN then
    (fun st => editorMoveCursor rows cols
        (if key = PAGE_UP then ARROW_UP else ARROW_DOWN) st)^[rows.toNat] s
  else if key = ARROW_UP ∨ key = ARROW_DOWN ∨ key = ARROW_LEFT ∨ key = ARROW_RIGHT then
    editorMoveCursor rows cols key s
  else s

/-- The cursor bound invariant: x in [0, cols-1], y in [0, rows-1]. -/
def InBounds (rows cols : Int) (s : Cursor) : Prop :=
  0 ≤ s.cx ∧ s.cx ≤ cols - 1 ∧ 0 ≤ s.cy ∧ s.cy ≤ rows - 1

instance (rows cols : Int) (s : Cursor) : Decidable (InBounds rows cols s) := by
  unfold InBounds; infer_instance

theorem editorMoveCursor_inBounds (rows cols : Int) (key : Nat) (s : Cursor)
    (hs : InBounds rows cols s) : InBounds rows cols (editorMoveCursor rows cols key s) := by
  obtain ⟨h1, h2, h3, h4⟩ := hs
  unfold editorMoveCursor
  split_ifs <;> refine ⟨?_, ?_, ?_, ?_⟩ <;> simp_all <;> omega

theorem editorProcessKeypress_inBounds (rows cols : Int) (key : Nat) (s : Cursor)
    (hs : InBounds rows cols s) :
    InBounds rows cols (editorProcessKeypress rows cols key s) := by
  unfold editorProcessKeypress
  by_cases h1 : key = PAGE_UP ∨ key = PAGE_DOWN
  · rw [if_pos h1]
    induction rows.toNat with
    | zero => simpa using hs
    | succ n ih =>
      rw [Function.iterate_succ_apply']
      exact editorMoveCursor_inBounds rows cols _ _ ih
  · rw [if_neg h1]
    by_cases h2 : key = ARROW_UP ∨ key = ARROW_DOWN ∨ key = ARROW_LEFT ∨ key = ARROW_RIGHT
    · rw [if_pos h2]
      exact editorMoveCursor_inBounds rows cols key s hs
    · rw [if_neg h2]
      exact hs

theorem foldl_keypress_inBounds (rows cols : Int) (keys : List Nat) (s : Cursor)
    (hs : InBounds rows cols s) :
    InBounds rows cols (keys.foldl (fun st k => editorProcessKeypress rows cols k st) s) := by
  induction keys generalizing s with
  | nil => exact hs
  | cons k ks ih => exact ih _ (editorProcessKeypress_inBounds rows cols k s hs)

/-! ## The append buffer: `struct abuf` / `abAppend`

An `abuf` is a byte sequence; `realloc` either succeeds (keeping the old
contents, per C semantics) or returns NULL.  `abAppend` on the successful
allocation path concatenates; `abAppendRealloc` makes the allocation outcome
explicit for the failure analysis. -/

/-- `abAppend` (kilo.c lines 429-436) on the successful `realloc` path. -/
def abAppend (ab s : List Nat) : List Nat := ab ++ s

/-- `abAppend` with the `realloc` outcome explicit: `none` models
`realloc` returning NULL, in which case the function returns with the
buffer untouched (`if (new == NULL) return;`). -/
def abAppendRealloc (alloc : Option Unit) (ab s : List Nat) : List Nat :=
  match alloc with
  | none => ab
  | some _ => ab ++ s

/-- The flush at the end of `editorRefreshScreen` (kilo.c line 509):
`write(STDOUT_FILENO, ab.b, ab.len)` — the sequence of write syscalls it
issues, each carrying the bytes written. -/
def abFlushWrites (ab : List Nat) : List (List Nat) := [ab]

/-! ## The row store: `erow` / `editorAppendRow` / `editorOpen`

`E.row` is a heap array of `erow`; each `editorAppendRow` reallocates it to
`E.numrows + 1` entries (so entries beyond that index are dropped), writes
the new row at index `E.numrows`, and then sets `E.numrows = 1`
(kilo.c line 391, as written).  The trailing CR/LF stripping is done by the
caller `editorOpen` before the call. -/

/-- The row-store part of `struct editorConfig`. -/
structure RowState where
  numrows : Nat
  row : List (List Nat)
deriving DecidableEq

/-- `editorAppendRow` from kilo.c, lines 383-392: `realloc` keeps the first
`numrows + 1` entries, the new row lands at index `numrows`, and `numrows`
is then set to `1`. -/
def editorAppendRow (st : RowState) (s : List Nat) : RowState :=
  { numrows := 1
    row := st.row.take st.numrows ++ [s] }

/-- The CR/LF-trimming loop of `editorOpen` (kilo.c lines 406-407):
`while (linelen > 0 && (line[linelen-1] == '\n' || line[linelen-1] == '\r'))
linelen--;` — returns the final `linelen` starting from `n`. -/
def trimNewlineLen (s : List Nat) : Nat → Nat
  | 0 => 0
  | n + 1 =>
    if s.getD n 0 = 10 ∨ s.getD n 0 = 13 then trimNewlineLen s n
    else n + 1

/-- The bytes `editorOpen` passes to `editorAppendRow`: the line with
trailing LF/CR bytes stripped. -/
def stripCRLF (s : List Nat) : List Nat := s.take (trimNewlineLen s s.length)

/-- The RowStore `append` of the spec: strip trailing CR/LF (in
`editorOpen`) then `editorAppendRow`. -/
def rowStoreAppend (st : RowState) (s : List Nat) : RowState :=
  editorAppendRow st (stripCRLF s)

/-! ## The renderer: `editorDrawRows` / `editorRefreshScreen` -/

/-- The state read by the renderer.  `cx`/`cy` are kept as `Nat`: they start
at 0 and stay in `[0, cols-1] × [0, rows-1]`. -/
structure EConfig where
  cx : Nat
  cy : Nat
  screenrows : Nat
  screencols : Nat
  numrows : Nat
  row : List (List Nat)
deriving DecidableEq

def KILO_VERSION : String := "0.0.1"

/-- The banner produced by `snprintf(welcome, sizeof(welcome),
"Kilo editor -- version %s", KILO_VERSION)` (28 bytes, well under the
80-byte buffer, so no snprintf truncation). -/
def welcomeBytes : List Nat := bytesOf ("Kilo editor -- version " ++ KILO_VERSION)

/-- The banner row of `editorDrawRows` (kilo.c lines 456-467): truncate the
welcome message to `cols`, then pad with `(cols - len) / 2` bytes, the first
being `'~'` and the rest spaces. -/
def bannerRow (cols : Nat) : List Nat :=
  let wl := if welcomeBytes.length > cols then cols else welcomeBytes.length
  let padding := (cols - wl) / 2
  (if padding ≠ 0 then 126 :: List.replicate (padding - 1) 32 else []) ++
    welcomeBytes.take wl

/-- The bytes `editorDrawRows` emits for screen row `y` before the
line-clear escape: a stored row truncated to `screencols` when `y <
numrows`; else the banner on the centre row of an empty document; else a
tilde (kilo.c lines 455-475). -/
def drawRowContent (E : EConfig) (y : Nat) : List Nat :=
  if E.numrows ≤ y then
    if E.numrows = 0 ∧ y = E.screenrows / 3 then bannerRow E.screencols
    else [126]
  else
    (E.row.getD y []).take
      (if (E.row.getD y []).length > E.screencols then E.screencols
       else (E.row.getD y []).length)

/-- One iteration of the `editorDrawRows` loop: the row's content, the
`"\x1b[K"` clear-to-end-of-line escape, and `"\r\n"` after every row except
the last (kilo.c lines 454-482). -/
def drawRow (E : EConfig) (y : Nat) : List Nat :=
  drawRowContent E y ++ [27, 91, 75] ++
    (if y < E.screenrows - 1 then [13, 10] else [])

/-- `editorDrawRows` (kilo.c lines 452-483) acting on the frame buffer. -/
def editorDrawRows (E : EConfig) (ab : List Nat) : List Nat :=
  (List.range E.screenrows).foldl (fun ab y => abAppend ab (drawRow E y)) ab

/-- The `"\x1b[%d;%dH"` cursor-position escape written by
`editorRefreshScreen` (kilo.c line 504), 1-based. -/
def posEsc (E : EConfig) : List Nat :=
  [27, 91] ++ bytesOf (Nat.repr (E.cy + 1)) ++ [59] ++
    bytesOf (Nat.repr (E.cx + 1)) ++ [72]

def hideCursorEsc : List Nat := bytesOf "\x1b[?25l"
def showCursorEsc : List Nat := bytesOf "\x1b[?25h"
def homeEsc : List Nat := [27, 91, 72]

/-- The frame buffer built by `editorRefreshScreen` (kilo.c lines 489-512),
as the sequence of `abAppend` calls the code makes. -/
def editorRefreshScreenBytes (E : EConfig) : List Nat :=
  abAppend
    (abAppend (editorDrawRows E (abAppend (abAppend [] hideCursorEsc) homeEsc))
      (posEsc E))
    showCursorEsc

/-- The write syscalls `editorRefreshScreen` issues: the single
`write(STDOUT_FILENO, ab.b, ab.len)` of the whole frame buffer. -/
def editorRefreshScreenWrites (E : EConfig) : List (List Nat) :=
  abFlushWrites (editorRefreshScreenBytes E)

/-! ## The cursor-position report parser: `getCursorPosition`

`getCursorPosition` (kilo.c lines 347-360) reads the reply to `ESC[6n`
byte-by-byte into `buf[32]` until an `'R'` byte, a read timeout, or
`i = 31`; NUL-terminates; checks the `ESC [` prefix; and runs
`sscanf(&buf[2], "%d;%d", ...)`, failing unless both conversions succeed.
The input is again the list of available bytes, exhausted at the timeout. -/

/-- The read loop: collect up to `fuel` bytes (31 in the code:
`i < sizeof(buf) - 1`), stopping before an `'R'` byte or at the end of the
available input. -/
def cprRead (input : List Nat) : Nat → List Nat
  | 0 => []
  | fuel + 1 =>
    match input with
    | [] => []
    | b :: rest => if b = 82 then [] else b :: cprRead rest fuel

/-- `isspace` bytes skipped by a `%d` conversion. -/
def isSpaceByte (b : Nat) : Bool := b = 32 || (9 ≤ b && b ≤ 13)

def isDigitByte (b : Nat) : Bool := 48 ≤ b && b ≤ 57

/-- Value of a digit run. -/
def digitsVal (ds : List Nat) : Nat := ds.foldl (fun a b => a * 10 + (b - 48)) 0

/-- One or more decimal digits; fails with no digit. -/
def scanUnsigned (s : List Nat) : Option (Nat × List Nat) :=
  let ds := s.takeWhile isDigitByte
  if ds = [] then none else some (digitsVal ds, s.dropWhile isDigitByte)

/-- A `%d` conversion: skip whitespace, optional sign, at least one digit. -/
def scanInt (s : List Nat) : Option (Int × List Nat) :=
  match s.dropWhile isSpaceByte with
  | 43 :: rest => (scanUnsigned rest).map (fun p => ((p.1 : Int), p.2))
  | 45 :: rest => (scanUnsigned rest).map (fun p => (-(p.1 : Int), p.2))
  | s1 => (scanUnsigned s1).map (fun p => ((p.1 : Int), p.2))

/-- `sscanf(s, "%d;%d", ...)` succeeding with both conversions: first `%d`,
then the literal `';'` which must match the next byte exactly, then the
second `%d`. -/
def sscanfDD (s : List Nat) : Option (Int × Int) :=
  match scanInt s with
  | none => none
  | some (d1, r) =>
    match r with
    | 59 :: r2 =>
      match scanInt r2 with
      | none => none
      | some (d2, _) => some (d1, d2)
    | _ => none

/-- `getCursorPosition` (kilo.c lines 347-360) as a function of the
available reply bytes: `none` is the `-1` failure return, `some (rows,
cols)` the success.  `buf.getD k 0` models the NUL terminator written at
`buf[i]` (the checks never look past it). -/
def getCursorPosition (input : List Nat) : Option (Int × Int) :=
  if (cprRead input 31).getD 0 0 = 27 then
    if (cprRead input 31).getD 1 0 = 91 then
      sscanfDD (((cprRead input 31).drop 2).takeWhile (fun b => decide (b ≠ 0)))
    else none
  else none

/-! ## Claim theorems -/

/-- C1: the key decoder maps raw byte sequences to logical keys: a lone ESC
with no further byte before the timeout yields Escape; `ESC [ A/B/C/D`
yield ArrowUp/ArrowDown/ArrowRight/ArrowLeft; `ESC [ 3 ~` yields Delete,
`ESC [ 5 ~` PageUp, `ESC [ 6 ~` PageDown; any other digit followed by `~`,
or a digit whose following byte is not `~`, yields Escape. -/
theorem kilo_C1 (d e b : Nat) (tail : List Nat)
    (hd : 48 ≤ d ∧ d ≤ 57) (hd3 : d ≠ 51) (hd5 : d ≠ 53) (hd6 : d ≠ 54)
    (he : 48 ≤ e ∧ e ≤ 57) (hb : b ≠ 126) :
    editorReadKey 27 [] = (27, []) ∧
    editorReadKey 27 (91 :: 65 :: tail) = (ARROW_UP, tail) ∧
    editorReadKey 27 (91 :: 66 :: tail) = (ARROW_DOWN, tail) ∧
    editorReadKey 27 (91 :: 67 :: tail) = (ARROW_RIGHT, tail) ∧
    editorReadKey 27 (91 :: 68 :: tail) = (ARROW_LEFT, tail) ∧
    editorReadKey 27 (91 :: 51 :: 126 :: tail) = (DEL_KEY, tail) ∧
    editorReadKey 27 (91 :: 53 :: 126 :: tail) = (PAGE_UP, tail) ∧
    editorReadKey 27 (91 :: 54 :: 126 :: tail) = (PAGE_DOWN, tail) ∧
    editorReadKey 27 (91 :: d :: 126 :: tail) = (27, tail) ∧
    editorReadKey 27 (91 :: e :: b :: tail) = (27, tail) := by
  refine ⟨rfl, rfl, rfl, rfl, rfl, rfl, rfl, rfl, ?_, ?_⟩
  · simp [editorReadKey, hd, hd3, hd5, hd6]
  · simp [editorReadKey, he, hb]

/-- Witness for C1 at digit `'4'` (other-digit case), digit `'3'` followed
by a non-`~` byte, and empty remaining input. -/
theorem kilo_C1_witness : editorReadKey 27 (91 :: 52 :: 126 :: [9]) = (27, [9]) :=
  (kilo_C1 52 51 65 [9] (by decide) (by decide) (by decide) (by decide)
    (by decide) (by decide)).2.2.2.2.2.2.2.2.1

/-- C10 (implicit): when ESC is followed by two available bytes whose first
is not `[`, or is `[` with a second byte that is neither a digit nor one of
`A`,`B`,`C`,`D`, the decoder emits Escape and both bytes are consumed (they
are never emitted as Character events). -/
theorem kilo_C10 (b0 b1 : Nat) (tail : List Nat)
    (h : b0 = 91 → ¬(48 ≤ b1 ∧ b1 ≤ 57) ∧ b1 ≠ 65 ∧ b1 ≠ 66 ∧ b1 ≠ 67 ∧ b1 ≠ 68) :
    editorReadKey 27 (b0 :: b1 :: tail) = (27, tail) := by
  by_cases h0 : b0 = 91
  · obtain ⟨h1, h2, h3, h4, h5⟩ := h h0
    simp [editorReadKey, h0, h1, h2, h3, h4, h5]
  · simp [editorReadKey, h0]

/-- Witness for C10 at `ESC O P` (an SS3-style sequence). -/
theorem kilo_C10_witness : editorReadKey 27 (79 :: 80 :: [9]) = (27, [9]) :=
  kilo_C10 79 80 [9] (by decide)

/-- C2: for any viewport with rows ≥ 1 and cols ≥ 1 and any sequence of
processed key events, the cursor starting from (0,0) stays inside
[0, cols-1] × [0, rows-1]; a single move at a boundary is a no-op. -/
theorem kilo_C2 (rows cols : Int) (keys : List Nat) (s : Cursor)
    (hrows : 1 ≤ rows) (hcols : 1 ≤ cols) :
    InBounds rows cols
      (keys.foldl (fun st k => editorProcessKeypress rows cols k st) ⟨0, 0⟩) ∧
    (s.cx = 0 → editorMoveCursor rows cols ARROW_LEFT s = s) ∧
    (s.cx = cols - 1 → editorMoveCursor rows cols ARROW_RIGHT s = s) ∧
    (s.cy = 0 → editorMoveCursor rows cols ARROW_UP s = s) ∧
    (s.cy = rows - 1 → editorMoveCursor rows cols ARROW_DOWN s = s) := by
  refine ⟨?_, ?_, ?_, ?_, ?_⟩
  · refine foldl_keypress_inBounds rows cols keys ⟨0, 0⟩
      ⟨le_refl 0, ?_, le_refl 0, ?_⟩
    · show (0 : Int) ≤ cols - 1
      omega
    · show (0 : Int) ≤ rows - 1
      omega
  · intro h; simp [editorMoveCursor, h]
  · intro h
    simp [editorMoveCursor, ARROW_RIGHT, ARROW_LEFT, h]
  · intro h
    simp [editorMoveCursor, ARROW_UP, ARROW_LEFT, ARROW_RIGHT, h]
  · intro h
    simp [editorMoveCursor, ARROW_DOWN, ARROW_LEFT, ARROW_RIGHT, ARROW_UP, h]

/-- Witness for C2: a 2×3 viewport, a key sequence with arrows and a
PageDown, and the cursor at the origin (a boundary for left/up moves). -/
theorem kilo_C2_witness :
    InBounds 2 3
      ([ARROW_RIGHT, PAGE_DOWN, ARROW_LEFT, ARROW_DOWN, PAGE_UP].foldl
        (fun st k => editorProcessKeypress 2 3 k st) ⟨0, 0⟩) :=
  (kilo_C2 2 3 [ARROW_RIGHT, PAGE_DOWN, ARROW_LEFT, ARROW_DOWN, PAGE_UP]
    ⟨0, 0⟩ (by decide) (by decide)).1

lemma foldl_abAppend_map {α : Type} (l : List α) (f : α → List Nat) (init : List Nat) :
    l.foldl (fun ab a => abAppend ab (f a)) init = init ++ (l.map f).flatten := by
  induction l generalizing init with
  | nil => simp
  | cons a t ih =>
    rw [List.foldl_cons, ih, List.map_cons, List.flatten_cons]
    simp [abAppend]

lemma editorDrawRows_eq (E : EConfig) (ab : List Nat) :
    editorDrawRows E ab = ab ++ ((List.range E.screenrows).map (drawRow E)).flatten :=
  foldl_abAppend_map _ _ _

/-- C3: a frame is flushed as a single write whose bytes are exactly:
hide-cursor, home-cursor, then every viewport row's content followed by the
clear-to-end-of-line escape and `CR LF` after every row but the last, then
the 1-based cursor-position escape for `(cy+1, cx+1)`, then show-cursor. -/
theorem kilo_C3 (E : EConfig) :
    editorRefreshScreenWrites E =
      [hideCursorEsc ++ homeEsc ++
        ((List.range E.screenrows).map (fun y =>
          drawRowContent E y ++ [27, 91, 75] ++
            (if y < E.screenrows - 1 then [13, 10] else []))).flatten ++
        posEsc E ++ showCursorEsc] ∧
    (editorRefreshScreenWrites E).length = 1 := by
  constructor
  · unfold editorRefreshScreenWrites abFlushWrites editorRefreshScreenBytes
    rw [editorDrawRows_eq]
    unfold drawRow
    simp [abAppend]
  · rfl

/-- C8: rendering the empty document on a 24×80 viewport puts the banner on
row `24 / 3 = 8`, as a `'~'`, 25 spaces, then the version message (centred:
`(80 - 28) / 2 = 26` padding bytes, the first the tilde placeholder), and
every other row's content is just the tilde. -/
theorem kilo_C8 :
    drawRowContent ⟨0, 0, 24, 80, 0, []⟩ 8 =
      126 :: (List.replicate 25 32 ++ welcomeBytes) ∧
    (List.range 24).filter
      (fun y => decide (drawRowContent ⟨0, 0, 24, 80, 0, []⟩ y ≠ [126])) = [8] := by
  decide

/-- C9: a stored row renders truncated to the first `screencols` bytes when
longer than the viewport width, in full when it fits, and its rendered
content never exceeds `screencols` bytes (no wrapping). -/
theorem kilo_C9 (E : EConfig) (y : Nat) (hy : y < E.numrows) :
    ((E.row.getD y []).length > E.screencols →
      drawRowContent E y = (E.row.getD y []).take E.screencols) ∧
    ((E.row.getD y []).length ≤ E.screencols →
      drawRowContent E y = E.row.getD y []) ∧
    (drawRowContent E y).length ≤ E.screencols := by
  have hn : ¬ E.numrows ≤ y := not_le.mpr hy
  unfold drawRowContent
  rw [if_neg hn]
  by_cases hl : (E.row.getD y []).length > E.screencols
  · rw [if_pos hl]
    refine ⟨fun _ => rfl, fun h => absurd hl (not_lt.mpr h), ?_⟩
    simp [List.length_take]
  · rw [if_neg hl]
    push_neg at hl
    exact ⟨fun h => absurd h (not_lt.mpr hl), fun _ => List.take_length _,
      by rw [List.take_length]; exact hl⟩

/-- Witness for C9: a 5-byte row on a 3-column viewport renders as its
first 3 bytes. -/
theorem kilo_C9_witness :
    drawRowContent ⟨0, 0, 2, 3, 1, [[1, 2, 3, 4, 5]]⟩ 0 = [1, 2, 3] :=
  ((kilo_C9 ⟨0, 0, 2, 3, 1, [[1, 2, 3, 4, 5]]⟩ 0 (by decide)).1
    (by decide)).trans (by decide)

lemma foldl_abAppend_id (ss : List (List Nat)) (init : List Nat) :
    ss.foldl abAppend init = init ++ ss.flatten := by
  induction ss generalizing init with
  | nil => simp
  | cons a t ih => simp [abAppend, ih]

/-- C6: starting from the empty buffer, a sequence of successful `abAppend`
calls leaves exactly the concatenation of the appended strings in call
order, of summed length, and the flush issues exactly one write of that
whole buffer. -/
theorem kilo_C6 (ss : List (List Nat)) :
    ss.foldl abAppend [] = ss.flatten ∧
    (ss.foldl abAppend []).length = (ss.map List.length).sum ∧
    abFlushWrites (ss.foldl abAppend []) = [ss.flatten] ∧
    (abFlushWrites (ss.foldl abAppend [])).length = 1 := by
  have h : ss.foldl abAppend [] = ss.flatten := by
    simpa using foldl_abAppend_id ss []
  refine ⟨h, ?_, by rw [h]; rfl, rfl⟩
  rw [h, List.length_flatten]

/-- C7: when `realloc` fails, `abAppend` returns with the buffer's contents
and length exactly as before the call, and its `void` return signals no
error to the caller. -/
theorem kilo_C7 (ab s : List Nat) :
    abAppendRealloc none ab s = ab ∧
    (abAppendRealloc none ab s).length = ab.length :=
  ⟨rfl, rfl⟩

/-! ### C4: the row store -/

lemma trimNewlineLen_le (s : List Nat) (n : Nat) : trimNewlineLen s n ≤ n := by
  induction n with
  | zero => exact le_refl 0
  | succ m ih =>
    unfold trimNewlineLen
    split
    · exact le_trans ih (Nat.le_succ m)
    · exact le_refl (m + 1)

lemma trimNewlineLen_append (s t : List Nat) (n : Nat) (h : n ≤ s.length) :
    trimNewlineLen (s ++ t) n = trimNewlineLen s n := by
  induction n with
  | zero => rfl
  | succ m ih =>
    have hm : m < s.length := h
    unfold trimNewlineLen
    rw [List.getD_append _ _ _ _ hm]
    split
    · exact ih (le_of_lt hm)
    · rfl

/-- The CR/LF trimming loop computes exactly "drop the trailing run of LF
and CR bytes". -/
lemma stripCRLF_eq (s : List Nat) :
    stripCRLF s = (s.reverse.dropWhile (fun c => c == 10 || c == 13)).reverse := by
  induction s using List.reverseRecOn with
  | nil => rfl
  | append_singleton s a ih =>
    have hgd : (s ++ [a]).getD s.length 0 = a := by
      rw [List.getD_append_right _ _ _ _ (le_refl s.length)]
      simp
    by_cases ha : a = 10 ∨ a = 13
    · have hp : (a == 10 || a == 13) = true := by
        rcases ha with h | h <;> simp [h]
      have h1 : trimNewlineLen (s ++ [a]) (s.length + 1) = trimNewlineLen s s.length := by
        conv_lhs => rw [trimNewlineLen]
        rw [hgd, if_pos ha]
        exact trimNewlineLen_append s [a] s.length (le_refl _)
      unfold stripCRLF
      simp only [List.length_append, List.length_singleton]
      rw [h1, List.take_append_of_le_length (trimNewlineLen_le s s.length),
        List.reverse_append, List.reverse_singleton, List.singleton_append,
        List.dropWhile_cons, hp, if_pos rfl]
      exact ih
    · have hp : (a == 10 || a == 13) = false := by
        push_neg at ha
        simp [ha.1, ha.2]
      have h1 : trimNewlineLen (s ++ [a]) (s.length + 1) = s.length + 1 := by
        conv_lhs => rw [trimNewlineLen]
        rw [hgd, if_neg ha]
      unfold stripCRLF
      simp only [List.length_append, List.length_singleton]
      rw [h1, show s.length + 1 = (s ++ [a]).length by simp, List.take_length,
        List.reverse_append, List.reverse_singleton, List.singleton_append,
        List.dropWhile_cons, hp]
      simp

/-- Counterexample to C4 as stated: appending to a store that already
holds one row ("hi") leaves the row count at 1 — it is not one greater
than before. -/
theorem kilo_C4_cex :
    (rowStoreAppend ⟨1, [[104, 105]]⟩ [120]).numrows = 1 ∧
    ¬ (rowStoreAppend ⟨1, [[104, 105]]⟩ [120]).numrows = 1 + 1 := by
  decide

/-- C4 amended: append strips trailing CR/LF bytes and stores the new row
at the index given by the previous count, leaving rows below that index
unchanged; but the row count is then set to 1 — one greater than before
only when the store was empty. -/
theorem kilo_C4_amended (st : RowState) (s : List Nat) (i : Nat)
    (hlen : st.numrows ≤ st.row.length) :
    (rowStoreAppend st s).numrows = 1 ∧
    (st.numrows = 0 → (rowStoreAppend st s).numrows = st.numrows + 1) ∧
    (rowStoreAppend st s).row.getD st.numrows [] =
      (s.reverse.dropWhile (fun c => c == 10 || c == 13)).reverse ∧
    (i < st.numrows → (rowStoreAppend st s).row.getD i [] = st.row.getD i []) := by
  have htake : (st.row.take st.numrows).length = st.numrows := by
    rw [List.length_take]
    exact min_eq_left hlen
  refine ⟨rfl, fun h => by rw [h]; rfl, ?_, fun hi => ?_⟩
  · show (st.row.take st.numrows ++ [stripCRLF s]).getD st.numrows [] = _
    rw [List.getD_append_right _ _ _ _ (le_of_eq htake), htake, Nat.sub_self]
    exact stripCRLF_eq s
  · show (st.row.take st.numrows ++ [stripCRLF s]).getD i [] = _
    have hi' : i < (st.row.take st.numrows).length := by rw [htake]; exact hi
    rw [List.getD_append _ _ _ _ hi', List.getD_eq_getElem?_getD,
      List.getElem?_take, if_pos hi, ← List.getD_eq_getElem?_getD]

/-- Witness for C4 amended: appending "hello\r\n" to a one-row store puts
the 5-byte "hello" at index 1 and leaves row 0 unchanged. -/
theorem kilo_C4_amended_witness :
    (rowStoreAppend ⟨1, [[104]]⟩ [104, 101, 108, 108, 111, 13, 10]).row.getD 1 [] =
      ([104, 101, 108, 108, 111, 13, 10].reverse.dropWhile
        (fun c => c == 10 || c == 13)).reverse ∧
    (rowStoreAppend ⟨1, [[104]]⟩ [104, 101, 108, 108, 111, 13, 10]).row.getD 0 [] =
      [104] :=
  ⟨(kilo_C4_amended ⟨1, [[104]]⟩ [104, 101, 108, 108, 111, 13, 10] 0 (by decide)).2.2.1,
   (kilo_C4_amended ⟨1, [[104]]⟩ [104, 101, 108, 108, 111, 13, 10] 0 (by decide)).2.2.2
     (by decide)⟩

/-! ### C5: the cursor-position report parser -/

lemma cprRead_length_le (input : List Nat) (fuel : Nat) :
    (cprRead input fuel).length ≤ fuel := by
  induction fuel generalizing input with
  | zero => simp [cprRead]
  | succ f ih =>
    cases input with
    | nil => simp [cprRead]
    | cons b rest =>
      by_cases hb : b = 82
      · simp [cprRead, hb]
      · simp only [cprRead, if_neg hb, List.length_cons]
        exact Nat.succ_le_succ (ih rest)

lemma cprRead_take (input : List Nat) (fuel : Nat) :
    cprRead input fuel = input.take (cprRead input fuel).length := by
  induction fuel generalizing input with
  | zero => simp [cprRead]
  | succ f ih =>
    cases input with
    | nil => simp [cprRead]
    | cons b rest =>
      by_cases hb : b = 82
      · simp [cprRead, hb]
      · simp only [cprRead, if_neg hb, List.length_cons, List.take_succ_cons]
        rw [← ih rest]

lemma cprRead_not_R (input : List Nat) (fuel : Nat) : 82 ∉ cprRead input fuel := by
  induction fuel generalizing input with
  | zero => simp [cprRead]
  | succ f ih =>
    cases input with
    | nil => simp [cprRead]
    | cons b rest =>
      by_cases hb : b = 82
      · simp [cprRead, hb]
      · simp only [cprRead, if_neg hb, List.mem_cons, not_or]
        exact ⟨fun h => hb h.symm, ih rest⟩

/-- Counterexample to C5 as stated: the reply `ESC [ 1 ; 2` followed by a
read timeout has no `'R'` terminator, yet `getCursorPosition` succeeds and
reports (1, 2) instead of failing. -/
theorem kilo_C5_cex :
    82 ∉ ([27, 91, 49, 59, 50] : List Nat) ∧
    getCursorPosition [27, 91, 49, 59, 50] = some (1, 2) ∧
    getCursorPosition [27, 91, 49, 59, 50] ≠ none := by
  decide

/-- C5 amended: the reply is read byte-by-byte until an `'R'` byte or the
31-byte cap, and a reply not starting with `ESC [` or whose fields do not
parse as two numbers yields failure; a reply whose `'R'` terminator is
merely missing still succeeds when the prefix and the two numeric fields
parse. -/
theorem kilo_C5_amended (input : List Nat)
    (h : (cprRead input 31).getD 0 0 ≠ 27 ∨ (cprRead input 31).getD 1 0 ≠ 91 ∨
      sscanfDD (((cprRead input 31).drop 2).takeWhile (fun b => decide (b ≠ 0))) = none) :
    getCursorPosition input = none ∧
    (cprRead input 31).length ≤ 31 ∧
    cprRead input 31 = input.take (cprRead input 31).length ∧
    82 ∉ cprRead input 31 := by
  refine ⟨?_, cprRead_length_le input 31, cprRead_take input 31, cprRead_not_R input 31⟩
  unfold getCursorPosition
  rcases h with h | h | h
  · rw [if_neg h]
  · by_cases h0 : (cprRead input 31).getD 0 0 = 27
    · rw [if_pos h0, if_neg h]
    · rw [if_neg h0]
  · by_cases h0 : (cprRead input 31).getD 0 0 = 27
    · by_cases h1 : (cprRead input 31).getD 1 0 = 91
      · rw [if_pos h0, if_pos h1]
        exact h
      · rw [if_pos h0, if_neg h1]
    · rw [if_neg h0]

/-- Witness for C5 amended: a reply that does not start with ESC fails. -/
theorem kilo_C5_amended_witness : getCursorPosition [65] = none :=
  (kilo_C5_amended [65] (by decide)).1

end Kilo
